import Mathlib

/-!
Shallow embedding of `src/app.py` (Discord export ZIP previewer) and
verification of the natural-language specification's claims against it.

The embedding covers the export ingestion and rendering pipeline:
timestamp parsing (`parse_timestamp`, `format_timestamp`), text
sanitization (`escape_html`, `highlight_mentions`), attachment resolution
(`render_attachments`), bundle loading (`load_from_directory`), the
message-shape dispatch and chronological sort in `main`, and the
per-message rendering loop with day separators.

Python standard-library functions used by the source are modelled at the
level of their documented behaviour for the inputs this program feeds
them: `datetime.fromisoformat`, `datetime` ordering, `html.escape`,
`str.replace` on a single-character pattern, `re.sub` with the mention
pattern, `base64.b64encode`, `sorted` (stable sort by key), and
`str.strftime` with the two fixed format strings of the source.
-/

set_option maxRecDepth 16384

namespace App

/-- A Python `datetime` value: calendar fields plus an optional fixed UTC
offset in minutes (`tz = none` models an offset-naive datetime, `tz = some o`
an offset-aware one, as produced by `datetime.fromisoformat` on a string
with a `+HH:MM`/`-HH:MM` suffix). -/
structure PyDatetime where
  year : Nat
  month : Nat
  day : Nat
  hour : Nat
  minute : Nat
  second : Nat
  microsecond : Nat
  tz : Option Int
deriving DecidableEq, Repr

/-- `datetime.min`: 0001-01-01 00:00:00, offset-naive. -/
def datetimeMin : PyDatetime := ⟨1, 1, 1, 0, 0, 0, 0, none⟩

def isLeapYear (y : Nat) : Bool :=
  y % 4 = 0 && (y % 100 ≠ 0 || y % 400 = 0)

def daysInMonth (y m : Nat) : Nat :=
  if m = 2 then (if isLeapYear y then 29 else 28)
  else if m = 4 || m = 6 || m = 9 || m = 11 then 30
  else 31

/-- Day number of a proleptic-Gregorian date (days since the civil epoch),
used so that datetime ordering agrees with calendar order. -/
def daysFromCivil (y m d : Nat) : Int :=
  let yi : Int := if m ≤ 2 then (y : Int) - 1 else (y : Int)
  let era : Int := yi / 400
  let yoe : Int := yi - era * 400
  let mp : Int := ((m : Int) + 9) % 12
  let doy : Int := (153 * mp + 2) / 5 + (d : Int) - 1
  let doe : Int := yoe * 365 + yoe / 4 - yoe / 100 + doy
  era * 146097 + doe - 719468

/-- Microseconds since the civil epoch, ignoring the UTC offset. -/
def naiveMicros (dt : PyDatetime) : Int :=
  (daysFromCivil dt.year dt.month dt.day) * 86400000000
    + ((dt.hour * 3600 + dt.minute * 60 + dt.second : Nat) : Int) * 1000000
    + (dt.microsecond : Int)

/-- Python `datetime` ordering (`a < b`): two offset-naive values compare by
calendar fields, two offset-aware values compare by UTC instant, and
comparing an offset-naive with an offset-aware value raises `TypeError`
("can't compare offset-naive and offset-aware datetimes"), modelled as
`Except.error`. -/
def pyDatetimeLt (a b : PyDatetime) : Except Unit Bool :=
  match a.tz, b.tz with
  | none, none => .ok (decide (naiveMicros a < naiveMicros b))
  | some ta, some tb =>
      .ok (decide (naiveMicros a - ta * 60000000 < naiveMicros b - tb * 60000000))
  | _, _ => .error ()

/-! ### Model of `datetime.fromisoformat` -/

def digitVal (c : Char) : Option Nat :=
  if c.isDigit then some (c.toNat - 48) else none

def parse2 : List Char → Option (Nat × List Char)
  | a :: b :: rest => do
      let x ← digitVal a
      let y ← digitVal b
      pure (10 * x + y, rest)
  | _ => none

def parse4 : List Char → Option (Nat × List Char)
  | a :: b :: c :: d :: rest => do
      let w ← digitVal a
      let x ← digitVal b
      let y ← digitVal c
      let z ← digitVal d
      pure (1000 * w + 100 * x + 10 * y + z, rest)
  | _ => none

def expectChar (c : Char) : List Char → Option (List Char)
  | x :: rest => if x = c then some rest else none
  | [] => none

/-- Fractional-seconds part: a dot followed by exactly three or exactly six
digits, yielding microseconds (as accepted by `datetime.fromisoformat`'s
`isoformat`-shaped inputs). -/
def parseFraction : List Char → Option (Nat × List Char)
  | '.' :: rest =>
      let ds := rest.takeWhile (fun c => c.isDigit)
      let r2 := rest.dropWhile (fun c => c.isDigit)
      let v := ds.foldl (fun acc c => 10 * acc + (c.toNat - 48)) 0
      if ds.length = 6 then some (v, r2)
      else if ds.length = 3 then some (v * 1000, r2)
      else none
  | _ => none

/-- UTC-offset suffix `±HH:MM`; the resulting offset must be strictly less
than 24 hours in magnitude (else `datetime.fromisoformat` raises). -/
def parseOffset : List Char → Option (Int × List Char)
  | s :: rest =>
      if s = '+' || s = '-' then do
        let (hh, r1) ← parse2 rest
        let r2 ← expectChar ':' r1
        let (mm, r3) ← parse2 r2
        let total : Nat := hh * 60 + mm
        if total < 1440 then
          pure (if s = '+' then (total : Int) else -(total : Int), r3)
        else none
      else none
  | [] => none

/-- Model of CPython's `datetime.fromisoformat` for `isoformat`-shaped
strings: `YYYY-MM-DD` optionally followed by a one-character separator and
`HH[:MM[:SS[.fff|.ffffff]]][±HH:MM]`.  Any parse or range failure yields
`none` (the source wraps the call in `try/except`). -/
def fromisoformat (s : String) : Option PyDatetime := do
  let cs := s.data
  let (y, r1) ← parse4 cs
  let r2 ← expectChar '-' r1
  let (mo, r3) ← parse2 r2
  let r4 ← expectChar '-' r3
  let (d, r5) ← parse2 r4
  if 1 ≤ y ∧ 1 ≤ mo ∧ mo ≤ 12 ∧ 1 ≤ d ∧ d ≤ daysInMonth y mo then
    match r5 with
    | [] => pure ⟨y, mo, d, 0, 0, 0, 0, none⟩
    | _sep :: r6 => do
        let (hh, r7) ← parse2 r6
        if hh ≤ 23 then do
          let (mi, se, us, r8) ←
            (match expectChar ':' r7 with
             | none => some (0, 0, 0, r7)
             | some r7a => do
                 let (mi, r7b) ← parse2 r7a
                 match expectChar ':' r7b with
                 | none => some (mi, 0, 0, r7b)
                 | some r7c => do
                     let (se, r7d) ← parse2 r7c
                     match parseFraction r7d with
                     | none => some (mi, se, 0, r7d)
                     | some (us, r7e) => some (mi, se, us, r7e))
          if mi ≤ 59 ∧ se ≤ 59 then
            match r8 with
            | [] => pure ⟨y, mo, d, hh, mi, se, us, none⟩
            | _ => do
                let (off, r9) ← parseOffset r8
                match r9 with
                | [] => pure ⟨y, mo, d, hh, mi, se, us, some off⟩
                | _ => none
          else none
        else none
  else none

/-- `parse_timestamp` (app.py lines 57-64): falsy input (`None` or the empty
string) yields `None`; otherwise `datetime.fromisoformat`, with any
exception mapped to `None`.  Call sites always pass a string (possibly
empty, via `.get(..., "")`). -/
def parse_timestamp (ts : String) : Option PyDatetime :=
  if ts = "" then none else fromisoformat ts

def pad2 (n : Nat) : String :=
  if n < 10 then "0" ++ toString n else toString n

def pad4 (n : Nat) : String :=
  if n < 10 then "000" ++ toString n
  else if n < 100 then "00" ++ toString n
  else if n < 1000 then "0" ++ toString n
  else toString n

/-- `strftime("%Y-%m-%d")`. -/
def strftimeDate (dt : PyDatetime) : String :=
  pad4 dt.year ++ "-" ++ pad2 dt.month ++ "-" ++ pad2 dt.day

/-- `strftime("%Y-%m-%d %H:%M")`. -/
def strftimeDateTime (dt : PyDatetime) : String :=
  strftimeDate dt ++ " " ++ pad2 dt.hour ++ ":" ++ pad2 dt.minute

/-- `format_timestamp` (app.py lines 67-72): display the parsed instant as
`YYYY-MM-DD HH:MM`; when parsing fails, fall back to the raw string
(`ts or ""` equals `ts` for every string argument, the empty string
included). -/
def format_timestamp (ts : String) : String :=
  match parse_timestamp ts with
  | none => ts
  | some dt => strftimeDateTime dt

/-! ### Data model: message and attachment records

Messages and attachments arrive as JSON objects read with `.get` and a
default; an `Option` field set to `none` models an absent key, and the
`.get` default is applied at each use site exactly as in the source. -/

structure Attachment where
  filename : Option String
  saved_as : Option String
  url : Option String
  content_type : Option String
deriving DecidableEq, Repr

structure Message where
  author : Option String
  content : Option String
  created_at : Option String
  attachments : List Attachment
deriving DecidableEq, Repr

/-! ### Chronological sort (`main`, app.py lines 377-382) -/

/-- `sort_key` (app.py lines 378-380): `parse_timestamp(msg.get("created_at", ""))
or datetime.min`. -/
def sortKey (m : Message) : PyDatetime :=
  (parse_timestamp (m.created_at.getD "")).getD datetimeMin

/-- Insert into an already-sorted list, keeping the new element before
key-equal later elements (stability); each key comparison may raise
`TypeError` (see `pyDatetimeLt`), which aborts the sort. -/
def insertByKey (m : Message) : List Message → Except Unit (List Message)
  | [] => .ok [m]
  | x :: xs =>
      match pyDatetimeLt (sortKey x) (sortKey m) with
      | .error e => .error e
      | .ok true =>
          match insertByKey m xs with
          | .error e => .error e
          | .ok r => .ok (x :: r)
      | .ok false => .ok (m :: x :: xs)

/-- `sorted(messages, key=sort_key)` (app.py line 382): a stable sort whose
key comparisons use Python `datetime` ordering; any `TypeError` raised by a
comparison propagates out of `sorted`. -/
def sortMessages : List Message → Except Unit (List Message)
  | [] => .ok []
  | m :: ms =>
      match sortMessages ms with
      | .error e => .error e
      | .ok r => insertByKey m r

/-! ### Text sanitizer (`escape_html`, app.py lines 75-84) -/

/-- Per-character form of `html.escape(text)` (quote mode): the five
markup-significant characters become entities, everything else is kept. -/
def escChar (c : Char) : List Char :=
  if c = '&' then "&amp;".data
  else if c = '<' then "&lt;".data
  else if c = '>' then "&gt;".data
  else if c = '\"' then "&quot;".data
  else if c = '\x27' then "&#x27;".data
  else [c]

def escFold (l : List Char) : List Char :=
  l.foldr (fun c acc => escChar c ++ acc) []

/-- `html.escape(text)`: equivalent to mapping `escChar` over the input,
since the entity strings introduced by one replacement are never rescanned
by the later single-character replacements. -/
def pyHtmlEscape (s : String) : String :=
  ⟨escFold s.data⟩

/-- `text.replace("\n", "<br>")`: the pattern is a single character, so the
replacement is a per-character rewrite. -/
def replaceNlChars : List Char → List Char
  | [] => []
  | c :: cs => (if c = '\n' then "<br>".data else [c]) ++ replaceNlChars cs

/-- `escape_html` (app.py lines 75-84): `None` yields `""`; otherwise
`html.escape` first, then line breaks become `<br>`. -/
def escape_html (t : Option String) : String :=
  match t with
  | none => ""
  | some s => ⟨replaceNlChars (pyHtmlEscape s).data⟩

/-! ### Mention highlighting (`highlight_mentions`, app.py lines 87-99) -/

/-- The `\d+&gt;` tail of the mention pattern: a non-empty maximal digit
run followed by the escaped closing bracket; on success yields the capture
(`mod` prepended to the digits) and the input after the match. -/
def tryMentionDigits (mod r : List Char) : Option (List Char × List Char) :=
  let ds := r.takeWhile (fun c => c.isDigit)
  let r2 := r.dropWhile (fun c => c.isDigit)
  if ds.isEmpty then none
  else
    match r2 with
    | '&' :: 'g' :: 't' :: ';' :: r3 => some (mod ++ ds, r3)
    | _ => none

/-- One attempt of the regex `&lt;@([!&]?\d+)&gt;` at the head of the
input: on success returns the captured group (optional modifier plus
digits) and the remaining input.  The optional `[!&]?` is tried greedily
first, with backtracking to the empty alternative, exactly as `re` does. -/
def matchMentionAt (cs : List Char) : Option (List Char × List Char) :=
  match cs with
  | '&' :: 'l' :: 't' :: ';' :: '@' :: rest =>
      match rest with
      | c :: r1 =>
          if c = '!' || c = '&' then
            match tryMentionDigits [c] r1 with
            | some out => some out
            | none => tryMentionDigits [] rest
          else tryMentionDigits [] rest
      | [] => none
  | _ => none

/-- Left-to-right scan of `re.sub`: replace each non-overlapping match of
the mention pattern by `<span class="mention">@{group1}</span>` (the
capture, modifier included, is interpolated verbatim).  The fuel argument
only bounds the recursion; every step consumes at least one character, so
`fuel = length` never runs out. -/
def hmAux : Nat → List Char → List Char
  | 0, cs => cs
  | fuel + 1, cs =>
      match matchMentionAt cs with
      | some (inner, rest) =>
          "<span class=\"mention\">@".data ++ inner ++ "</span>".data ++ hmAux fuel rest
      | none =>
          match cs with
          | [] => []
          | c :: cs2 => c :: hmAux fuel cs2

/-- `highlight_mentions` (app.py lines 87-99):
`re.sub(r"&lt;@([!&]?\d+)&gt;", repl, text_html)` where `repl` produces
`<span class="mention">@{inner}</span>` with `inner` the capture group
(which "includes optional ! or &", per the source comment). -/
def highlight_mentions (s : String) : String :=
  ⟨hmAux s.data.length s.data⟩

/-! ### Character-level string primitives -/

def charsPrefix : List Char → List Char → Bool
  | [], _ => true
  | _ :: _, [] => false
  | a :: as, b :: bs => a = b && charsPrefix as bs

def charsContains (needle : List Char) : List Char → Bool
  | [] => needle.isEmpty
  | c :: t => charsPrefix needle (c :: t) || charsContains needle t

/-- Python's `s.startswith(pre)`. -/
def pyStartsWith (s pre : String) : Bool :=
  charsPrefix pre.data s.data

/-- Boolean substring test, for concrete evaluation. -/
def strContainsB (s sub : String) : Bool :=
  charsContains sub.data s.data

/-! ### Base64 (`base64.b64encode(data).decode("ascii")`) -/

def b64Alphabet : List Char :=
  "ABCDEFGHIJKLMNOPQRSTUVWXYZabcdefghijklmnopqrstuvwxyz0123456789+/".data

def b64Char (n : Nat) : Char := b64Alphabet.getD n 'A'

/-- Standard base64 of a byte sequence (bytes as naturals below 256),
with `=` padding. -/
def b64encodeChars : List Nat → List Char
  | [] => []
  | [a] => [b64Char (a / 4), b64Char (a % 4 * 16), '=', '=']
  | [a, b] => [b64Char (a / 4), b64Char (a % 4 * 16 + b / 16), b64Char (b % 16 * 4), '=']
  | a :: b :: c :: rest =>
      b64Char (a / 4) :: b64Char (a % 4 * 16 + b / 16) ::
        b64Char (b % 16 * 4 + c / 64) :: b64Char (c % 64) :: b64encodeChars rest

def b64encode (bytes : List Nat) : String := ⟨b64encodeChars bytes⟩

/-! ### Attachment store

The `attachments/` directory is a lookup from saved filename to a file
entry; `readable` carries the file's bytes, `unreadable` models a file
whose `open`/`read` raises (the `except` branch at app.py lines 134-135). -/

inductive FileEntry where
  | readable (bytes : List Nat)
  | unreadable
deriving DecidableEq, Repr

/-- Lookup inside the `attachments/` directory: `candidate.exists()` holds
exactly when the lookup succeeds. -/
def lookupFile (dir : List (String × FileEntry)) (name : String) : Option FileEntry :=
  match dir with
  | [] => none
  | (k, v) :: rest => if k = name then some v else lookupFile rest name

/-! ### Attachment rendering (`render_attachments`, app.py lines 102-182)

The HTML template strings reproduce the source's f-strings exactly,
including the newlines and indentation of the triple-quoted literals. -/

/-- A run of `n` spaces (the indentation inside the triple-quoted
f-strings). -/
def sp (n : Nat) : String := ⟨List.replicate n ' '⟩

/-- The successful-image block (app.py lines 142-151). -/
def imgOkHtml (href src filename : String) : String :=
  "\n" ++ sp 20 ++ "<div class=\"attachment\">\n"
    ++ sp 24 ++ "<div class=\"attachment-label\">Image:</div>\n"
    ++ sp 24 ++ "<a href=\"" ++ href ++ "\" target=\"_blank\">\n"
    ++ sp 28 ++ "<img src=\"" ++ src ++ "\" alt=\"" ++ filename
    ++ "\" class=\"attachment-image\" />\n"
    ++ sp 24 ++ "</a>\n"
    ++ sp 24 ++ "<div class=\"attachment-filename\">" ++ filename ++ "</div>\n"
    ++ sp 20 ++ "</div>\n" ++ sp 20

/-- The image block used when no source is available (app.py lines 155-160). -/
def imgFailHtml (filename : String) : String :=
  "\n" ++ sp 20 ++ "<div class=\"attachment\">\n"
    ++ sp 24 ++ "<span class=\"attachment-label\">Image:</span>\n"
    ++ sp 24 ++ "<span class=\"attachment-filename\">" ++ filename ++ "</span>\n"
    ++ sp 20 ++ "</div>\n" ++ sp 20

/-- The link form of a non-image attachment (app.py lines 167-169). -/
def attachmentLinkHtml (url filename : String) : String :=
  "<a href=\"" ++ url ++ "\" target=\"_blank\" class=\"attachment-link\">"
    ++ filename ++ "</a>"

/-- The plain-filename form of a non-image attachment (app.py line 171). -/
def attachmentNameHtml (filename : String) : String :=
  "<span class=\"attachment-filename\">" ++ filename ++ "</span>"

/-- The non-image attachment block (app.py lines 174-179). -/
def attachmentOtherHtml (linkHtml : String) : String :=
  "\n" ++ sp 16 ++ "<div class=\"attachment\">\n"
    ++ sp 20 ++ "<span class=\"attachment-label\">Attachment:</span>\n"
    ++ sp 20 ++ linkHtml ++ "\n"
    ++ sp 16 ++ "</div>\n" ++ sp 16

/-- The data URI built for a locally-stored image (app.py lines 129-133). -/
def dataUri (mime : String) (bytes : List Nat) : String :=
  "data:" ++ mime ++ ";base64," ++ b64encode bytes

/-- `att.get("filename", "attachment")` (app.py line 113). -/
def attFilename (att : Attachment) : String := att.filename.getD "attachment"

/-- `att.get("saved_as") or filename` (app.py line 114): a missing or
empty (falsy) `saved_as` falls back to the filename. -/
def attSavedAs (att : Attachment) : String :=
  match att.saved_as with
  | some s => if s = "" then attFilename att else s
  | none => attFilename att

/-- `att.get("url", "")` (app.py line 115). -/
def attUrl (att : Attachment) : String := att.url.getD ""

/-- `att.get("content_type", "")` (app.py line 116). -/
def attContentType (att : Attachment) : String := att.content_type.getD ""

/-- The body of the `for att in attachments` loop (app.py lines 112-180):
defaulted field access, local-file lookup, then the image branch (prefer a
data URI from the local file, fall back to the URL) or the generic
attachment branch (link when a URL exists, plain filename otherwise). -/
def renderAttachment (dir : Option (List (String × FileEntry))) (att : Attachment) : String :=
  let filename := attFilename att
  let saved_as := attSavedAs att
  let url := attUrl att
  let content_type := attContentType att
  let local_file : Option FileEntry :=
    match dir with
    | none => none
    | some d => lookupFile d saved_as
  if pyStartsWith content_type "image/" then
    let src0 : String :=
      match local_file with
      | some (.readable bytes) =>
          dataUri (if content_type = "" then "image/png" else content_type) bytes
      | some .unreadable => ""
      | none => ""
    let src := if src0 = "" ∧ url ≠ "" then url else src0
    if src ≠ "" then
      imgOkHtml (if url ≠ "" then url else src) src filename
    else
      imgFailHtml filename
  else
    let linkHtml :=
      if url ≠ "" then attachmentLinkHtml url filename
      else attachmentNameHtml filename
    attachmentOtherHtml linkHtml

/-- `render_attachments` (app.py lines 102-182): empty input yields `""`;
otherwise the concatenation of the per-attachment blocks. -/
def render_attachments (atts : List Attachment)
    (dir : Option (List (String × FileEntry))) : String :=
  match atts with
  | [] => ""
  | _ => ⟨(atts.map (fun a => (renderAttachment dir a).data)).foldr (· ++ ·) []⟩

/-! ### Bundle loader (`load_from_directory`, app.py lines 27-54) -/

/-- A parsed JSON value, as produced by `json.load` (only the shapes the
claims exercise need distinguishing). -/
inductive PyValue where
  | pyNone
  | str (s : String)
  | num (n : Int)
  | boolean (b : Bool)
  | list (xs : List PyValue)
  | dict (kvs : List (String × PyValue))

/-- Python truthiness of a JSON value: `None`, `""`, `0`, `False`, `[]` and
the empty dict are falsy. -/
def pyTruthy : PyValue → Bool
  | .pyNone => false
  | .str s => s ≠ ""
  | .num n => n ≠ 0
  | .boolean b => b
  | .list xs => !xs.isEmpty
  | .dict kvs => !kvs.isEmpty

def dictLookup (kvs : List (String × PyValue)) (key : String) : Option PyValue :=
  match kvs with
  | [] => none
  | (k, v) :: rest => if k = key then some v else dictLookup rest key

/-- A base directory as the loader sees it: the parsed content of
`messages.json` when that file exists, the parsed content of
`metadata.json` when it exists and parses (a parse failure is already
folded to `none` by the `try/except` at app.py lines 44-48), and the
attachment directory when `attachments/` exists and is a directory. -/
structure Dir where
  messagesJson : Option PyValue
  metadataJson : Option PyValue
  attachmentsDir : Option (List (String × FileEntry))

/-- `load_from_directory` (app.py lines 27-54): when `messages.json` is
absent, return `([], None, None)`; otherwise return the parsed messages
value together with the optional metadata and the optional attachments
directory. -/
def load_from_directory (d : Dir) :
    PyValue × Option PyValue × Option (List (String × FileEntry)) :=
  match d.messagesJson with
  | none => (.list [], none, none)
  | some v => (v, d.metadataJson, d.attachmentsDir)

/-- Outcome of `main`'s handling of the loaded messages value (app.py
lines 359-375): the `if not messages: return` early exit, the
"JSON format not recognized" error for a dict without a `messages` key,
or the value handed on to the sort (the unwrapped `messages` entry of a
dict, or the value itself). -/
inductive MainStep where
  | noMessages
  | unrecognized
  | proceed (v : PyValue)

/-- The dispatch in `main` (app.py lines 359-375). -/
def selectMessages (messages : PyValue) : MainStep :=
  if pyTruthy messages = false then .noMessages
  else
    match messages with
    | .dict kvs =>
        match dictLookup kvs "messages" with
        | some v => .proceed v
        | none => .unrecognized
    | v => .proceed v

/-! ### Message rendering (`main`, app.py lines 403-447) -/

/-- The per-message f-string template (app.py lines 429-443), reproduced
with the literal's exact newlines and indentation. -/
def messageHtml (avatarLetter author tsDisplay safeBody attachmentsHtml : String) : String :=
  "\n" ++ sp 8 ++ "<div class=\"message\">\n"
    ++ sp 12 ++ "<div class=\"avatar\">" ++ avatarLetter ++ "</div>\n"
    ++ sp 12 ++ "<div class=\"message-content\">\n"
    ++ sp 16 ++ "<div class=\"message-header\">\n"
    ++ sp 20 ++ "<span class=\"author-name\">" ++ author ++ "</span>\n"
    ++ sp 20 ++ "<span class=\"timestamp\">" ++ tsDisplay ++ "</span>\n"
    ++ sp 16 ++ "</div>\n"
    ++ sp 16 ++ "<div class=\"message-body\">\n"
    ++ sp 20 ++ safeBody ++ "\n"
    ++ sp 16 ++ "</div>\n"
    ++ sp 16 ++ attachmentsHtml ++ "\n"
    ++ sp 12 ++ "</div>\n"
    ++ sp 8 ++ "</div>\n" ++ sp 8

/-- One message's markup (the loop body at app.py lines 405-445, without
the day separator): defaulted field access, avatar letter (first character
of the author upper-cased, `"?"` when the author is empty), sanitized and
mention-highlighted body, attachments, and the formatted timestamp. -/
def renderMessage (dir : Option (List (String × FileEntry))) (m : Message) : String :=
  let author := m.author.getD "Unknown"
  let content := m.content.getD ""
  let created_at := m.created_at.getD ""
  let avatarLetter :=
    if author = "" then "?" else String.singleton (author.get 0).toUpper
  let safeBody := highlight_mentions (escape_html (some content))
  let attachmentsHtml := render_attachments m.attachments dir
  messageHtml avatarLetter author (format_timestamp created_at) safeBody attachmentsHtml

/-- `dt.strftime("%Y-%m-%d") if dt else None` for a message's `created_at`
(app.py lines 411-412). -/
def dateStrOf (m : Message) : Option String :=
  (parse_timestamp (m.created_at.getD "")).map strftimeDate

/-- A rendered fragment: a day separator or one message's markup (each is
one `st.markdown` call in the source). -/
inductive Frag where
  | sep (date : String)
  | msg (html : String)
deriving DecidableEq, Repr

/-- The rendering loop (app.py lines 403-445) carrying `last_date_str`:
a day separator is emitted when the current date string is truthy and
differs from the last one emitted (`if cur_date_str and cur_date_str !=
last_date_str`), and `last_date_str` is then updated. -/
def renderLoop (dir : Option (List (String × FileEntry)))
    (last : Option String) : List Message → List Frag
  | [] => []
  | m :: rest =>
      match dateStrOf m with
      | some d =>
          if d ≠ "" ∧ some d ≠ last then
            .sep d :: .msg (renderMessage dir m) :: renderLoop dir (some d) rest
          else
            .msg (renderMessage dir m) :: renderLoop dir last rest
      | none => .msg (renderMessage dir m) :: renderLoop dir last rest

/-- The full rendering pass over the (already sorted) message list, with
`last_date_str` initially `None`. -/
def renderSequence (dir : Option (List (String × FileEntry)))
    (msgs : List Message) : List Frag :=
  renderLoop dir none msgs

/-! ### Shared helper predicates and lemmas -/

/-- `sub` occurs (contiguously) inside `s`. -/
def StrInfix (sub s : String) : Prop :=
  ∃ p q : List Char, s.data = p ++ (sub.data ++ q)

/-- The sanitizer at the character level (`escape_html` on the content of
a `some` input). -/
def escapeChars (l : List Char) : List Char :=
  replaceNlChars (escFold l)

/-- The escaped form of the mention token `<@123456>` (or `<@!123456>` when
`md = ['!']`), as it appears in sanitized text. -/
def mentionTok (md : List Char) : List Char :=
  '&' :: 'l' :: 't' :: ';' :: '@' :: (md ++ ("123456".data ++ ['&', 'g', 't', ';']))

/-- The replacement span the highlighter produces for that token. -/
def mentionSpan (md : List Char) : List Char :=
  "<span class=\"mention\">@".data ++ ((md ++ "123456".data) ++ "</span>".data)

/-! ### Concrete fixtures used by the claim theorems -/

/-- A message whose `created_at` carries the UTC offset of the source's own
doc-comment example (app.py line 61); it parses to an offset-aware
datetime. -/
def msgAwareTs : Message :=
  ⟨none, none, some "2024-09-17T06:52:11.254000+00:00", []⟩

/-- A message with `created_at` absent. -/
def msgNoTs : Message := ⟨none, none, none, []⟩

/-- A directory with no `messages.json` at all. -/
def dirMissingBundle : Dir := ⟨none, none, none⟩

/-- A directory whose `messages.json` exists and holds the empty JSON
array, with no metadata and no attachments. -/
def dirEmptyList : Dir := ⟨some (.list []), none, none⟩

/-- A video attachment with both a locally stored file and a URL. -/
def vidAttachment : Attachment :=
  ⟨some "clip.mp4", some "clip.mp4", some "http://example.com/clip.mp4", some "video/mp4"⟩

def vidStore : List (String × FileEntry) := [("clip.mp4", .readable [0, 1, 2])]

/-- An attachment declaring `content_type="IMAGE/PNG"` (upper case), with a
stored local file and a URL. -/
def upperPngAttachment : Attachment :=
  ⟨some "pic.png", some "pic.png", some "http://example.com/pic.png", some "IMAGE/PNG"⟩

def picStore : List (String × FileEntry) := [("pic.png", .readable [1, 2, 3])]

def photoAttachment : Attachment :=
  ⟨some "photo.png", none, some "http://example.com/photo.png", some "image/png"⟩

def photoStore : List (String × FileEntry) := [("photo.png", .readable [7, 8])]

def dayMsg1 : Message := ⟨some "alice", some "hi", some "2024-09-17T08:00:00", []⟩
def dayMsg2 : Message := ⟨some "bob", some "yo", some "2024-09-17T09:00:00", []⟩
def dayMsg3 : Message := ⟨some "carol", some "hey", some "2024-09-18T09:30:00", []⟩

/-- A message whose author (and body) contain markup-significant
characters. -/
def authorMarkupMsg : Message := ⟨some "<b&", some "<b&", none, []⟩

theorem strInfix_of_eq_append (sub s : String) (p q : List Char)
    (h : s.data = p ++ (sub.data ++ q)) : StrInfix sub s :=
  ⟨p, q, h⟩

theorem pyStartsWith_imageSlash_ne_empty (s : String)
    (h : pyStartsWith s "image/" = true) : s ≠ "" := by
  intro he
  rw [he] at h
  exact absurd h (by decide)

theorem dataUri_ne_empty (mime : String) (bytes : List Nat) :
    dataUri mime bytes ≠ "" := by
  intro h
  have hd := congrArg String.data h
  rw [dataUri] at hd
  simp only [String.data_append] at hd
  simp at hd

/-! ### Claim C1 -/

/-- Claim C1, evaluated at the failing input: `parse_timestamp` does return
`none` for absent or malformed timestamps, and the sort key of such a
message is `datetime.min`; but `datetime.min` is offset-naive, while the
timestamp format the source documents (`"2024-09-17T06:52:11.254000+00:00"`)
parses offset-aware, so `sorted` raises `TypeError` on a bundle mixing the
two — the message is NOT rendered without error, contradicting the claim
that unparseable timestamps sort harmlessly as the earliest instant. -/
theorem c1_mixed_naive_aware_sort_raises :
    sortMessages [msgAwareTs, msgNoTs] = .error ()
    ∧ parse_timestamp "" = none
    ∧ parse_timestamp "not a timestamp" = none
    ∧ parse_timestamp "2024-09-17T06:52:11.254000+00:00"
        = some ⟨2024, 9, 17, 6, 52, 11, 254000, some 0⟩
    ∧ sortKey msgNoTs = datetimeMin :=
  ⟨rfl, rfl, rfl, rfl, rfl⟩

/-! ### Claim C2 -/

/-- Claim C2 is false: loading a directory with no `messages.json` and
loading one whose `messages.json` is an empty message list produce the
very same result `([], None, None)` — the loader/caller boundary does not
distinguish the two cases. -/
theorem c2_missing_vs_empty_indistinguishable :
    load_from_directory dirMissingBundle = load_from_directory dirEmptyList := rfl

/-- Claim C2 as amended: a missing `messages.json` and an empty message
list (in a directory without metadata or attachments) both load to
`([], None, None)`, and `main`'s `if not messages` check classifies both
as the missing-bundle case — the caller cannot distinguish them and shows
the "Could not find messages.json" message even when the file exists with
an empty list. -/
theorem c2_amended_conflated :
    load_from_directory dirMissingBundle = (.list [], none, none)
    ∧ load_from_directory dirEmptyList = (.list [], none, none)
    ∧ selectMessages (load_from_directory dirMissingBundle).1 = .noMessages
    ∧ selectMessages (load_from_directory dirEmptyList).1 = .noMessages :=
  ⟨rfl, rfl, rfl, rfl⟩

/-! ### Claims C3 and C5: the attachment branch test -/

/-- The generic (non-image) attachment branch is taken whenever the
declared content type does not pass the case-sensitive
`content_type.startswith("image/")` test (app.py lines 125, 163-180). -/
theorem renderAttachment_generic (dir : Option (List (String × FileEntry)))
    (att : Attachment) (h : pyStartsWith (attContentType att) "image/" = false) :
    renderAttachment dir att
      = attachmentOtherHtml
          (if attUrl att ≠ "" then attachmentLinkHtml (attUrl att) (attFilename att)
           else attachmentNameHtml (attFilename att)) := by
  simp [renderAttachment, h]

/-- Claim C3 is false: the code has no video handling at all — an
attachment with content type `video/mp4`, a usable local file in the
store, and a non-empty URL is rendered as a generic attachment link (with
no inline-video element, no controls), not as an inline video. -/
theorem c3_video_rendered_as_plain_link :
    render_attachments [vidAttachment] (some vidStore)
      = attachmentOtherHtml (attachmentLinkHtml "http://example.com/clip.mp4" "clip.mp4")
    ∧ strContainsB (render_attachments [vidAttachment] (some vidStore)) "<video" = false
    ∧ strContainsB (render_attachments [vidAttachment] (some vidStore)) "Attachment:" = true := by
  refine ⟨?_, ?_, ?_⟩ <;> decide

/-- Claim C3 as amended: an attachment whose content type has primary
category video (so it fails the image-prefix test) is rendered through the
generic attachment branch — a clickable link labeled with the filename
when a URL is present, otherwise a plain filename label; no inline-video
rendering exists in the code. -/
theorem c3_amended_video_generic (dir : Option (List (String × FileEntry)))
    (att : Attachment)
    (h1 : pyStartsWith (attContentType att) "image/" = false)
    (_h2 : pyStartsWith (attContentType att) "video/" = true) :
    renderAttachment dir att
      = attachmentOtherHtml
          (if attUrl att ≠ "" then attachmentLinkHtml (attUrl att) (attFilename att)
           else attachmentNameHtml (attFilename att)) :=
  renderAttachment_generic dir att h1

/-- Witness for C3's amended theorem at a concrete video attachment. -/
theorem c3_amended_video_generic_witness :
    renderAttachment none ⟨some "clip.mp4", none, some "http://example.com/c.mp4", some "video/mp4"⟩
      = attachmentOtherHtml (attachmentLinkHtml "http://example.com/c.mp4" "clip.mp4") := by
  have h := c3_amended_video_generic none
    ⟨some "clip.mp4", none, some "http://example.com/c.mp4", some "video/mp4"⟩
    (by decide) (by decide)
  simpa using h

/-- Claim C5 is false: the media-category test is the case-sensitive
`content_type.startswith("image/")`, with no lower-casing and no split on
`/` — an attachment declared `IMAGE/PNG` is NOT treated as an image: it
renders through the generic attachment branch (no inline `<img>`, no
"Image:" label). -/
theorem c5_uppercase_image_not_inline :
    renderAttachment (some picStore) upperPngAttachment
      = attachmentOtherHtml (attachmentLinkHtml "http://example.com/pic.png" "pic.png")
    ∧ strContainsB (renderAttachment (some picStore) upperPngAttachment) "Image:" = false
    ∧ strContainsB (renderAttachment (some picStore) upperPngAttachment) "<img" = false := by
  refine ⟨?_, ?_, ?_⟩ <;> decide

/-- Claim C5 as amended: the resolver's classification is a case-sensitive
prefix test `content_type.startswith("image/")`; a content type of
`IMAGE/PNG`, like a missing one, fails it and the attachment is rendered
through the generic non-image branch. -/
theorem c5_amended_case_sensitive (dir : Option (List (String × FileEntry)))
    (att : Attachment)
    (h : attContentType att = "IMAGE/PNG" ∨ attContentType att = "") :
    renderAttachment dir att
      = attachmentOtherHtml
          (if attUrl att ≠ "" then attachmentLinkHtml (attUrl att) (attFilename att)
           else attachmentNameHtml (attFilename att)) := by
  refine renderAttachment_generic dir att ?_
  rcases h with h | h <;> rw [h] <;> decide

/-- Witness for C5's amended theorem at a concrete attachment with a
missing content type and no URL. -/
theorem c5_amended_case_sensitive_witness :
    renderAttachment none ⟨some "doc.bin", none, none, none⟩
      = attachmentOtherHtml (attachmentNameHtml "doc.bin") := by
  have h := c5_amended_case_sensitive none ⟨some "doc.bin", none, none, none⟩ (Or.inr rfl)
  simpa using h

/-! ### Claim C6 -/

/-- Claim C6: for an attachment whose content type passes the image test,
with a readable file stored under its resolved saved-as name, the rendered
block is an inline image whose source is the data URI of the file's bytes
tagged with the declared content type; the link target is the original URL
when one is present, and the data URI itself when the URL is empty. -/
theorem c6_image_local_file_link_target
    (store : List (String × FileEntry)) (att : Attachment) (bytes : List Nat)
    (hct : pyStartsWith (attContentType att) "image/" = true)
    (hfile : lookupFile store (attSavedAs att) = some (.readable bytes)) :
    (attUrl att ≠ "" →
      renderAttachment (some store) att
        = imgOkHtml (attUrl att) (dataUri (attContentType att) bytes) (attFilename att))
    ∧ (attUrl att = "" →
      renderAttachment (some store) att
        = imgOkHtml (dataUri (attContentType att) bytes) (dataUri (attContentType att) bytes)
            (attFilename att)) := by
  have hne : attContentType att ≠ "" := pyStartsWith_imageSlash_ne_empty _ hct
  have hsrc : dataUri (attContentType att) bytes ≠ "" := dataUri_ne_empty _ _
  constructor
  · intro hurl
    simp [renderAttachment, hct, hfile, hne, hsrc, hurl]
  · intro hurl
    simp [renderAttachment, hct, hfile, hne, hsrc, hurl]

/-- Witness for C6 at a concrete attachment, store and URL. -/
theorem c6_image_local_file_link_target_witness :
    renderAttachment (some photoStore) photoAttachment
      = imgOkHtml "http://example.com/photo.png" (dataUri "image/png" [7, 8]) "photo.png" := by
  have h := c6_image_local_file_link_target photoStore photoAttachment
    [7, 8] (by decide) (by decide)
  exact h.1 (by decide)

/-! ### Claim C8 -/

theorem escChar_counts (c : Char) :
    (escChar c).count '<' = 0 ∧ (escChar c).count '>' = 0
      ∧ (escChar c).count '\n' = [c].count '\n' := by
  unfold escChar
  split_ifs with h1 h2 h3 h4 h5
  · subst h1; decide
  · subst h2; decide
  · subst h3; decide
  · subst h4; decide
  · subst h5; decide
  · refine ⟨?_, ?_, rfl⟩ <;> simp [List.count_cons, h2, h3]

theorem escFold_counts (l : List Char) :
    (escFold l).count '<' = 0 ∧ (escFold l).count '>' = 0
      ∧ (escFold l).count '\n' = l.count '\n' := by
  induction l with
  | nil => simp [escFold]
  | cons c t ih =>
      have hc := escChar_counts c
      simp only [escFold, List.foldr_cons, List.count_append] at *
      refine ⟨?_, ?_, ?_⟩
      · rw [hc.1, ih.1]
      · rw [hc.2.1, ih.2.1]
      · rw [hc.2.2, ih.2.2]
        simp [List.count_cons]
        omega

theorem replaceNl_counts (l : List Char) :
    (replaceNlChars l).count '<' = l.count '\n' + l.count '<'
      ∧ (replaceNlChars l).count '>' = l.count '\n' + l.count '>' := by
  induction l with
  | nil => simp [replaceNlChars]
  | cons c t ih =>
      by_cases h : c = '\n'
      · subst h
        simp only [replaceNlChars, if_pos rfl, List.count_append]
        constructor
        · rw [ih.1]; simp [List.count_cons]; omega
        · rw [ih.2]; simp [List.count_cons]; omega
      · simp only [replaceNlChars, if_neg h, List.count_append]
        constructor
        · rw [ih.1]
          by_cases hc : c = '<' <;> (simp [List.count_cons, hc, h]; try omega)
        · rw [ih.2]
          by_cases hc : c = '>' <;> (simp [List.count_cons, hc, h]; try omega)

/-- Claim C8: `escape_html` maps `None` to the empty result, escapes each
of the five markup-significant characters to its entity (running before
the line-break conversion: a newline becomes a literal `<br>` marker, not
an escaped one), and — the no-unescaped-angle-brackets property — every
`<` and every `>` in the output comes from a line-break marker: their
counts both equal the number of newlines in the input, so input text such
as `<script>` contributes no angle bracket to the output. -/
theorem c8_escape_html_safety :
    escape_html none = ""
    ∧ escape_html (some "&") = "&amp;"
    ∧ escape_html (some "<") = "&lt;"
    ∧ escape_html (some ">") = "&gt;"
    ∧ escape_html (some "\"") = "&quot;"
    ∧ escape_html (some "\x27") = "&#x27;"
    ∧ escape_html (some "\n") = "<br>"
    ∧ escape_html (some "<script>alert(1)</script>") =
        "&lt;script&gt;alert(1)&lt;/script&gt;"
    ∧ ∀ s : String,
        (escape_html (some s)).data.count '<' = s.data.count '\n'
        ∧ (escape_html (some s)).data.count '>' = s.data.count '\n' := by
  refine ⟨rfl, rfl, rfl, rfl, rfl, rfl, rfl, rfl, ?_⟩
  intro s
  show (replaceNlChars (escFold s.data)).count '<' = s.data.count '\n'
    ∧ (replaceNlChars (escFold s.data)).count '>' = s.data.count '\n'
  have he := escFold_counts s.data
  have hr := replaceNl_counts (escFold s.data)
  constructor
  · rw [hr.1, he.1, he.2.2]; omega
  · rw [hr.2, he.2.1, he.2.2]; omega

/-! ### Claim C7 -/

/-- Claim C7 is false at the empty list: a bare JSON array `[]` is falsy,
so `main` takes the `if not messages: return` early exit (the
missing-bundle path), while the envelope `{"messages": []}` is a non-empty
dict (truthy), is unwrapped, and proceeds to render an empty sequence —
the two shapes do not yield identical behaviour for every message list. -/
theorem c7_bare_vs_wrapped_empty_differ :
    selectMessages (.list []) = .noMessages
    ∧ selectMessages (.dict [("messages", .list [])]) = .proceed (.list [])
    ∧ selectMessages (.list []) ≠ selectMessages (.dict [("messages", .list [])]) :=
  ⟨rfl, rfl, fun h => MainStep.noConfusion h⟩

/-- Claim C7 as amended: for every NON-empty message list the two document
shapes are interchangeable — both a bare array and a `{"messages": [...]}`
envelope reach the sort with exactly the same message sequence; for the
empty list the bare shape takes the no-messages early exit while the
envelope proceeds with an empty sequence. -/
theorem c7_amended_nonempty_lists_agree (L : List PyValue) (h : L ≠ []) :
    selectMessages (.list L) = .proceed (.list L)
    ∧ selectMessages (.dict [("messages", .list L)]) = .proceed (.list L) := by
  constructor
  · simp [selectMessages, pyTruthy, h]
  · simp [selectMessages, pyTruthy, dictLookup]

/-- Witness for C7's amended theorem at a concrete one-element list. -/
theorem c7_amended_nonempty_lists_agree_witness :
    selectMessages (.list [PyValue.str "m"]) = .proceed (.list [PyValue.str "m"])
    ∧ selectMessages (.dict [("messages", .list [PyValue.str "m"])])
        = .proceed (.list [PyValue.str "m"]) :=
  c7_amended_nonempty_lists_agree [PyValue.str "m"] (List.cons_ne_nil _ _)

/-! ### Claim C9 -/

/-- Claim C9: on a sorted 3-message bundle spanning two calendar days the
renderer emits exactly two day separators, each immediately before the
first message of its day; in general a separator is emitted exactly when a
message's resolvable date differs from the last emitted date (so the first
message with a resolvable date always emits one, and a repeated date emits
none). -/
theorem c9_day_separators :
    renderSequence none [dayMsg1, dayMsg2, dayMsg3]
      = [.sep "2024-09-17", .msg (renderMessage none dayMsg1),
         .msg (renderMessage none dayMsg2),
         .sep "2024-09-18", .msg (renderMessage none dayMsg3)]
    ∧ (∀ dir last m rest d, dateStrOf m = some d → d ≠ "" → some d ≠ last →
        renderLoop dir last (m :: rest)
          = .sep d :: .msg (renderMessage dir m) :: renderLoop dir (some d) rest)
    ∧ (∀ dir last m rest d, dateStrOf m = some d → some d = last →
        renderLoop dir last (m :: rest)
          = .msg (renderMessage dir m) :: renderLoop dir last rest)
    ∧ (∀ dir m rest d, dateStrOf m = some d → d ≠ "" →
        renderLoop dir none (m :: rest)
          = .sep d :: .msg (renderMessage dir m) :: renderLoop dir (some d) rest) := by
  refine ⟨by decide, ?_, ?_, ?_⟩
  · intro dir last m rest d h hd hlast
    simp [renderLoop, h, hd, hlast]
  · intro dir last m rest d h hlast
    subst hlast
    simp [renderLoop, h]
  · intro dir m rest d h hd
    simp [renderLoop, h, hd]

/-- Witness for C9's general separator rules at a concrete message. -/
theorem c9_day_separators_witness :
    renderLoop none none [dayMsg3]
      = [.sep "2024-09-18", .msg (renderMessage none dayMsg3)] := by
  have h := c9_day_separators.2.2.2 none dayMsg3 [] "2024-09-18" (by decide) (by decide)
  simpa using h

/-! ### Claim C10 -/

/-- Claim C10: the author string is interpolated verbatim — with no markup
escaping — into both the avatar glyph (its first character, upper-cased)
and the author-name span of the rendered fragment; concretely, an author
`<b&` appears as raw `<b&` inside the author-name span while the same text
in the message body is escaped to `&lt;b&amp;`. -/
theorem c10_author_embedded_unescaped :
    (∀ (dir : Option (List (String × FileEntry))) (m : Message),
       m.author.getD "Unknown" ≠ "" →
       StrInfix ("<span class=\"author-name\">" ++ m.author.getD "Unknown" ++ "</span>")
         (renderMessage dir m)
       ∧ StrInfix ("<div class=\"avatar\">"
             ++ String.singleton ((m.author.getD "Unknown").get 0).toUpper ++ "</div>")
           (renderMessage dir m))
    ∧ strContainsB (renderMessage none authorMarkupMsg)
        "<span class=\"author-name\"><b&</span>" = true
    ∧ strContainsB (renderMessage none authorMarkupMsg) "&lt;b&amp;" = true := by
  refine ⟨?_, by decide, by decide⟩
  intro dir m hne
  constructor
  · refine strInfix_of_eq_append _ _
      (("\n" ++ sp 8 ++ "<div class=\"message\">\n"
        ++ sp 12 ++ "<div class=\"avatar\">"
        ++ String.singleton ((m.author.getD "Unknown").get 0).toUpper ++ "</div>\n"
        ++ sp 12 ++ "<div class=\"message-content\">\n"
        ++ sp 16 ++ "<div class=\"message-header\">\n" ++ sp 20).data)
      (("\n" ++ sp 20 ++ "<span class=\"timestamp\">"
        ++ format_timestamp (m.created_at.getD "") ++ "</span>\n"
        ++ sp 16 ++ "</div>\n"
        ++ sp 16 ++ "<div class=\"message-body\">\n"
        ++ sp 20 ++ highlight_mentions (escape_html (some (m.content.getD ""))) ++ "\n"
        ++ sp 16 ++ "</div>\n"
        ++ sp 16 ++ render_attachments m.attachments dir ++ "\n"
        ++ sp 12 ++ "</div>\n"
        ++ sp 8 ++ "</div>\n" ++ sp 8).data) ?_
    simp [renderMessage, messageHtml, hne, String.data_append, List.append_assoc]
  · refine strInfix_of_eq_append _ _
      (("\n" ++ sp 8 ++ "<div class=\"message\">\n" ++ sp 12).data)
      (("\n" ++ sp 12 ++ "<div class=\"message-content\">\n"
        ++ sp 16 ++ "<div class=\"message-header\">\n"
        ++ sp 20 ++ "<span class=\"author-name\">" ++ m.author.getD "Unknown" ++ "</span>\n"
        ++ sp 20 ++ "<span class=\"timestamp\">"
        ++ format_timestamp (m.created_at.getD "") ++ "</span>\n"
        ++ sp 16 ++ "</div>\n"
        ++ sp 16 ++ "<div class=\"message-body\">\n"
        ++ sp 20 ++ highlight_mentions (escape_html (some (m.content.getD ""))) ++ "\n"
        ++ sp 16 ++ "</div>\n"
        ++ sp 16 ++ render_attachments m.attachments dir ++ "\n"
        ++ sp 12 ++ "</div>\n"
        ++ sp 8 ++ "</div>\n" ++ sp 8).data) ?_
    simp [renderMessage, messageHtml, hne, String.data_append, List.append_assoc]

/-- Witness for C10's general part at a concrete message with markup in
the author field. -/
theorem c10_author_embedded_unescaped_witness :
    StrInfix "<span class=\"author-name\"><b&</span>" (renderMessage none authorMarkupMsg)
    ∧ StrInfix "<div class=\"avatar\"><</div>" (renderMessage none authorMarkupMsg) := by
  have h := c10_author_embedded_unescaped.1 none authorMarkupMsg (by decide)
  exact ⟨h.1, h.2⟩

/-! ### Claim C4 -/

theorem charsPrefix_eq (n : List Char) : ∀ l : List Char,
    charsPrefix n l = true → ∃ r, l = n ++ r := by
  induction n with
  | nil => intro l _; exact ⟨l, rfl⟩
  | cons a as ih =>
      intro l h
      cases l with
      | nil => simp [charsPrefix] at h
      | cons b bs =>
          simp only [charsPrefix, Bool.and_eq_true, decide_eq_true_eq] at h
          obtain ⟨h1, h2⟩ := h
          obtain ⟨r, hr⟩ := ih bs h2
          exact ⟨r, by rw [hr, h1]; rfl⟩

theorem charsContains_spec (n : List Char) : ∀ l : List Char,
    charsContains n l = true → ∃ p q, l = p ++ (n ++ q) := by
  intro l
  induction l with
  | nil =>
      intro h
      simp only [charsContains, List.isEmpty_iff] at h
      exact ⟨[], [], by simp [h]⟩
  | cons c t ih =>
      intro h
      simp only [charsContains, Bool.or_eq_true] at h
      rcases h with h | h
      · obtain ⟨r, hr⟩ := charsPrefix_eq n _ h
        exact ⟨[], r, by simp [hr]⟩
      · obtain ⟨p, q, hpq⟩ := ih h
        exact ⟨c :: p, q, by simp [hpq]⟩

theorem escFold_append (a b : List Char) :
    escFold (a ++ b) = escFold a ++ escFold b := by
  induction a with
  | nil => rfl
  | cons c t ih => simp only [List.cons_append, escFold, List.foldr_cons] at *
                   rw [ih, List.append_assoc]

theorem replaceNl_append (a b : List Char) :
    replaceNlChars (a ++ b) = replaceNlChars a ++ replaceNlChars b := by
  induction a with
  | nil => rfl
  | cons c t ih => simp only [List.cons_append, replaceNlChars, List.append_eq] at *
                   rw [ih, List.append_assoc]

theorem tryMentionDigits_some (mod r inner rest : List Char)
    (h : tryMentionDigits mod r = some (inner, rest)) :
    ∃ ds, inner = mod ++ ds ∧ ds ≠ [] ∧ (∀ c ∈ ds, c.isDigit = true)
      ∧ r = ds ++ ('&' :: 'g' :: 't' :: ';' :: rest) := by
  simp only [tryMentionDigits] at h
  split at h
  · exact absurd h (by simp)
  · split at h
    · rename_i heq
      simp only [Option.some.injEq, Prod.mk.injEq] at h
      obtain ⟨h1, h2⟩ := h
      refine ⟨r.takeWhile (fun c => c.isDigit), h1.symm, ?_, ?_, ?_⟩
      · rename_i hne _ _; simpa [List.isEmpty_iff] using hne
      · intro c hc; exact List.mem_takeWhile_imp hc
      · conv_lhs => rw [← List.takeWhile_append_dropWhile (p := fun c => c.isDigit) (l := r)]
        rw [heq, h2]
    · exact absurd h (by simp)

theorem matchMentionAt_some (cs inner rest : List Char)
    (h : matchMentionAt cs = some (inner, rest)) :
    ∃ md ds, (md = [] ∨ md = ['!'] ∨ md = ['&'])
      ∧ inner = md ++ ds ∧ ds ≠ [] ∧ (∀ c ∈ ds, c.isDigit = true)
      ∧ cs = '&' :: 'l' :: 't' :: ';' :: '@' :: (md ++ (ds ++ '&' :: 'g' :: 't' :: ';' :: rest)) := by
  unfold matchMentionAt at h
  split at h
  · rename_i rest0
    split at h
    · rename_i c r1
      split at h
      · rename_i hmodc
        split at h
        · rename_i out hout
          simp only [Option.some.injEq] at h
          subst h
          obtain ⟨ds, h1, h2, h3, h4⟩ := tryMentionDigits_some [c] r1 inner rest hout
          refine ⟨[c], ds, ?_, h1, h2, h3, by rw [h4]; rfl⟩
          rw [Bool.or_eq_true] at hmodc
          rcases hmodc with hc | hc
          · exact Or.inr (Or.inl (by rw [decide_eq_true_eq] at hc; rw [hc]))
          · exact Or.inr (Or.inr (by rw [decide_eq_true_eq] at hc; rw [hc]))
        · obtain ⟨ds, h1, h2, h3, h4⟩ := tryMentionDigits_some [] (c :: r1) inner rest h
          exact ⟨[], ds, Or.inl rfl, h1, h2, h3, by rw [h4]; rfl⟩
      · obtain ⟨ds, h1, h2, h3, h4⟩ := tryMentionDigits_some [] (c :: r1) inner rest h
        exact ⟨[], ds, Or.inl rfl, h1, h2, h3, by rw [h4]; rfl⟩
    · exact absurd h (by simp)
  · exact absurd h (by simp)

theorem token_walker (w q : List Char) : ∀ (ds p rest : List Char),
    (∀ c ∈ ds, c.isDigit = true) →
    ds ++ ('&' :: 'g' :: 't' :: ';' :: rest)
      = p ++ (('&' :: 'l' :: 't' :: ';' :: '@' :: w) ++ q) →
    ∃ p2, p = ds ++ ('&' :: 'g' :: 't' :: ';' :: p2)
      ∧ rest = p2 ++ (('&' :: 'l' :: 't' :: ';' :: '@' :: w) ++ q) := by
  intro ds
  induction ds with
  | nil =>
      intro p rest _ heq
      rcases p with _ | ⟨c0, _ | ⟨c1, _ | ⟨c2, _ | ⟨c3, p4⟩⟩⟩⟩
      · injection heq with h0 heq
        injection heq with h1 heq
        exact absurd h1 (by decide)
      · injection heq with h0 heq
        injection heq with h1 heq
        exact absurd h1 (by decide)
      · injection heq with h0 heq
        injection heq with h1 heq
        injection heq with h2 heq
        exact absurd h2 (by decide)
      · injection heq with h0 heq
        injection heq with h1 heq
        injection heq with h2 heq
        injection heq with h3 heq
        exact absurd h3 (by decide)
      · injection heq with h0 heq
        injection heq with h1 heq
        injection heq with h2 heq
        injection heq with h3 heq
        exact ⟨p4, by rw [← h0, ← h1, ← h2, ← h3]; rfl, heq⟩
  | cons d ds' ih =>
      intro p rest hdig heq
      cases p with
      | nil =>
          injection heq with h1 _
          have hd : d.isDigit = true := hdig d (List.mem_cons_self _ _)
          rw [h1] at hd
          exact absurd hd (by decide)
      | cons c0 p' =>
          injection heq with h1 heq'
          obtain ⟨p2, hp, hrest⟩ :=
            ih p' rest (fun c hc => hdig c (List.mem_cons_of_mem _ hc)) heq'
          exact ⟨p2, by rw [hp, ← h1]; rfl, hrest⟩

theorem token_not_inside (md ds rest p q w : List Char)
    (hmd : md = [] ∨ md = ['!'] ∨ md = ['&'])
    (hds : ds ≠ []) (hdig : ∀ c ∈ ds, c.isDigit = true)
    (hp : p ≠ [])
    (heq : '&' :: 'l' :: 't' :: ';' :: '@' :: (md ++ (ds ++ '&' :: 'g' :: 't' :: ';' :: rest))
      = p ++ (('&' :: 'l' :: 't' :: ';' :: '@' :: w) ++ q)) :
    ∃ p2, p = '&' :: 'l' :: 't' :: ';' :: '@' :: (md ++ (ds ++ '&' :: 'g' :: 't' :: ';' :: p2))
      ∧ rest = p2 ++ (('&' :: 'l' :: 't' :: ';' :: '@' :: w) ++ q) := by
  rcases p with _ | ⟨c0, p⟩
  · exact absurd rfl hp
  injection heq with h0 heq
  rcases p with _ | ⟨c1, p⟩
  · injection heq with h1 heq
    exact absurd h1 (by decide)
  injection heq with h1 heq
  rcases p with _ | ⟨c2, p⟩
  · injection heq with h2 heq
    exact absurd h2 (by decide)
  injection heq with h2 heq
  rcases p with _ | ⟨c3, p⟩
  · injection heq with h3 heq
    exact absurd h3 (by decide)
  injection heq with h3 heq
  rcases p with _ | ⟨c4, p⟩
  · injection heq with h4 heq
    exact absurd h4 (by decide)
  injection heq with h4 heq
  rcases hmd with h | h | h
  · subst h
    simp only [List.nil_append] at heq ⊢
    obtain ⟨p2, hp', hrest⟩ := token_walker w q ds p rest hdig heq
    exact ⟨p2, by rw [← h0, ← h1, ← h2, ← h3, ← h4, hp'], hrest⟩
  · subst h
    rcases p with _ | ⟨c5, p⟩
    · injection heq with h5 heq
      exact absurd h5 (by decide)
    · injection heq with h5 heq
      obtain ⟨p2, hp', hrest⟩ := token_walker w q ds p rest hdig heq
      refine ⟨p2, ?_, hrest⟩
      rw [← h0, ← h1, ← h2, ← h3, ← h4, ← h5, hp']
      rfl
  · subst h
    rcases p with _ | ⟨c5, p⟩
    · injection heq with h5 heq
      rcases ds with _ | ⟨d, ds'⟩
      · exact absurd rfl hds
      · injection heq with h6 _
        have hd : d.isDigit = true := hdig d (List.mem_cons_self _ _)
        rw [h6] at hd
        exact absurd hd (by decide)
    · injection heq with h5 heq
      obtain ⟨p2, hp', hrest⟩ := token_walker w q ds p rest hdig heq
      refine ⟨p2, ?_, hrest⟩
      rw [← h0, ← h1, ← h2, ← h3, ← h4, ← h5, hp']
      rfl

theorem hmAux_finds_token (md : List Char) (hmd : md = [] ∨ md = ['!']) :
    ∀ fuel cs p q, cs.length ≤ fuel → cs = p ++ (mentionTok md ++ q) →
      ∃ u v, hmAux fuel cs = u ++ (mentionSpan md ++ v) := by
  intro fuel
  induction fuel with
  | zero =>
      intro cs p q hlen hcs
      exfalso
      subst hcs
      simp [mentionTok, List.length_append] at hlen
  | succ fuel ih =>
      intro cs p q hlen hcs
      cases p with
      | nil =>
          simp only [List.nil_append] at hcs
          subst hcs
          rcases hmd with h | h
          · subst h
            exact ⟨[], hmAux fuel q, rfl⟩
          · subst h
            exact ⟨[], hmAux fuel q, rfl⟩
      | cons c0 p' =>
          cases hm : matchMentionAt cs with
          | none =>
              have hcs' : cs = c0 :: (p' ++ (mentionTok md ++ q)) := by rw [hcs]; rfl
              have hlen' : (p' ++ (mentionTok md ++ q)).length ≤ fuel := by
                have := hlen
                rw [hcs'] at this
                simpa using this
              obtain ⟨u, v, huv⟩ := ih (p' ++ (mentionTok md ++ q)) p' q hlen' rfl
              refine ⟨c0 :: u, v, ?_⟩
              rw [hcs', hmAux]
              have hm' : matchMentionAt (c0 :: (p' ++ (mentionTok md ++ q))) = none := by
                rw [← hcs']; exact hm
              rw [hm', huv]
              rfl
          | some pair =>
              obtain ⟨inner, rest⟩ := pair
              obtain ⟨md', ds', hmd', hinner, hds', hdig', hshape⟩ :=
                matchMentionAt_some cs inner rest hm
              have hne : (c0 :: p') ≠ ([] : List Char) := by simp
              have heq :
                  '&' :: 'l' :: 't' :: ';' :: '@'
                      :: (md' ++ (ds' ++ '&' :: 'g' :: 't' :: ';' :: rest))
                    = (c0 :: p')
                        ++ (('&' :: 'l' :: 't' :: ';' :: '@'
                              :: (md ++ ("123456".data ++ ['&', 'g', 't', ';']))) ++ q) := by
                rw [← hshape, hcs]; rfl
              obtain ⟨p2, hp2, hrest⟩ :=
                token_not_inside md' ds' rest (c0 :: p')
                  q (md ++ ("123456".data ++ ['&', 'g', 't', ';'])) hmd' hds' hdig' hne heq
              have hrest' : rest = p2 ++ (mentionTok md ++ q) := by
                rw [hrest]; rfl
              have hlenrest : rest.length ≤ fuel := by
                have := hlen
                rw [hshape] at this
                simp [List.length_append] at this
                omega
              obtain ⟨u, v, huv⟩ := ih rest p2 q hlenrest hrest'
              refine ⟨"<span class=\"mention\">@".data ++ inner ++ "</span>".data ++ u, v, ?_⟩
              have hm2 : matchMentionAt ('&' :: 'l' :: 't' :: ';' :: '@'
                  :: (md' ++ (ds' ++ '&' :: 'g' :: 't' :: ';' :: rest))) = some (inner, rest) := by
                rw [← hshape]; exact hm
              rw [hshape, hmAux, hm2]
              simp [huv, List.append_assoc]

theorem escapeChars_append (a b : List Char) :
    escapeChars (a ++ b) = escapeChars a ++ escapeChars b := by
  unfold escapeChars
  rw [escFold_append, replaceNl_append]

/-- Claim C4 as amended: for every text input containing the token
`<@123456>`, sanitize followed by mention highlighting yields output
containing a highlighted mention span whose displayed text is `@123456`;
for every text containing `<@!123456>` the output contains a span whose
displayed text is `@!123456` — the optional modifier character is kept in
the display, not stripped. -/
theorem c4_amended_mentions (s : String) :
    (strContainsB s "<@123456>" = true →
      StrInfix "<span class=\"mention\">@123456</span>"
        (highlight_mentions (escape_html (some s))))
    ∧ (strContainsB s "<@!123456>" = true →
      StrInfix "<span class=\"mention\">@!123456</span>"
        (highlight_mentions (escape_html (some s)))) := by
  constructor
  · intro h
    obtain ⟨p, q, hpq⟩ := charsContains_spec _ _ h
    have htok : escapeChars "<@123456>".data = mentionTok [] := by decide
    have hspan : "<span class=\"mention\">@123456</span>".data = mentionSpan [] := by decide
    have hdataeq : (escape_html (some s)).data
        = escapeChars p ++ (mentionTok [] ++ escapeChars q) := by
      show escapeChars s.data = _
      rw [hpq, escapeChars_append, escapeChars_append, htok]
    obtain ⟨u, v, huv⟩ := hmAux_finds_token [] (Or.inl rfl)
      ((escape_html (some s)).data.length) ((escape_html (some s)).data)
      (escapeChars p) (escapeChars q) le_rfl hdataeq
    exact ⟨u, v, by show hmAux _ _ = _; rw [huv, hspan]⟩
  · intro h
    obtain ⟨p, q, hpq⟩ := charsContains_spec _ _ h
    have htok : escapeChars "<@!123456>".data = mentionTok ['!'] := by decide
    have hspan : "<span class=\"mention\">@!123456</span>".data = mentionSpan ['!'] := by decide
    have hdataeq : (escape_html (some s)).data
        = escapeChars p ++ (mentionTok ['!'] ++ escapeChars q) := by
      show escapeChars s.data = _
      rw [hpq, escapeChars_append, escapeChars_append, htok]
    obtain ⟨u, v, huv⟩ := hmAux_finds_token ['!'] (Or.inr rfl)
      ((escape_html (some s)).data.length) ((escape_html (some s)).data)
      (escapeChars p) (escapeChars q) le_rfl hdataeq
    exact ⟨u, v, by show hmAux _ _ = _; rw [huv, hspan]⟩

/-- Claim C4 is false for the modifier form: after sanitize and highlight,
the token `<@!123456>` produces a span whose displayed text is `@!123456`
— the capture group keeps the modifier character (the source comment even
notes it "includes optional ! or &"), so the display is not the
modifier-stripped `@123456` the claim requires. -/
theorem c4_modifier_not_stripped :
    highlight_mentions (escape_html (some "<@!123456>"))
      = "<span class=\"mention\">@!123456</span>"
    ∧ strContainsB (highlight_mentions (escape_html (some "<@!123456>")))
        "<span class=\"mention\">@123456</span>" = false :=
  ⟨by decide, by decide⟩

/-- Witness for C4's amended theorem: the highlighted spans appear, with
the stated displays, for tokens embedded in surrounding text. -/
theorem c4_amended_mentions_witness :
    StrInfix "<span class=\"mention\">@123456</span>"
      (highlight_mentions (escape_html (some "hey <@123456>, hi")))
    ∧ StrInfix "<span class=\"mention\">@!123456</span>"
      (highlight_mentions (escape_html (some "yo <@!123456>!"))) :=
  ⟨(c4_amended_mentions "hey <@123456>, hi").1 (by decide),
   (c4_amended_mentions "yo <@!123456>!").2 (by decide)⟩

end App
